import Mathlib

/-!
Shallow embedding of the LWF_SNODAS_CaPA core (src/lwf_calc/lwf.py and
src/lwf_calc/resample.py) and verification of the specification's claims
about it.

Modelling conventions:
* a cell value is `Option ℚ`; `none` models the NaN / "no data" sentinel
  (NaN propagates through arithmetic and compares false against 0);
* timestamps are integers; coordinates and data values are rationals
  (the float arithmetic of the source is modelled exactly);
* an xarray `Dataset` holding one 3-D variable is a `DataArr`
  (time × lat × lon nested lists plus its coordinate axes);
* exceptions raised by the Python code (pandas `KeyError` on `.sel`,
  numpy broadcast `ValueError` on slice assignment, scipy `QhullError`)
  become `Except` errors;
* xarray binary-operation alignment is modelled as in xarray: identical
  axes combine positionally, otherwise both operands are reindexed by
  label to the inner join (elements of the left axis present in the
  right one, left order, pandas' default);
* slice assignment `a[t-1, :, :] = v` is positional with numpy's
  size-1 broadcasting rule on each spatial dimension;
* scipy's `griddata(..., method='linear')` builds a Delaunay
  triangulation, which raises for fewer than 3 input points in 2-D; the
  piecewise-linear evaluation itself is abstracted as a `Kernel`
  parameter (its values never matter to the claims below).
-/

deriving instance DecidableEq for Except

namespace LWF

/-- A cell value; `none` models the NaN / "no data" sentinel. -/
abbrev Value := Option ℚ

/-- One 3-D gridded variable with its coordinate axes
(`time × lat × lon`), the in-memory data model shared by SNODAS, CaPA
and the outputs. -/
structure DataArr where
  time : List ℤ
  lat : List ℚ
  lon : List ℚ
  vals : List (List (List Value))
deriving DecidableEq

/-- A 2-D (lat × lon) slice together with its coordinate labels, the
result of selecting one timestamp. -/
structure Slice2 where
  lat : List ℚ
  lon : List ℚ
  vals : List (List Value)
deriving DecidableEq

/-- The value of a dataset at time index `t`, latitude index `i`,
longitude index `j` (out-of-range indices read as `none`). -/
def cell (A : DataArr) (t i j : Nat) : Value :=
  ((A.vals.getD t []).getD i []).getD j none

/-- Index of the first occurrence of `d` (pandas label lookup). -/
def idxOf? (d : ℤ) : List ℤ → Option Nat
  | [] => none
  | x :: l => if x = d then some 0 else (idxOf? d l).map (· + 1)

/-- `A.sel(time=d)`: exact-label selection of one time slice; `none`
models pandas raising `KeyError`. -/
def selTime (A : DataArr) (d : ℤ) : Option Slice2 :=
  (idxOf? d A.time).map (fun i => ⟨A.lat, A.lon, A.vals.getD i []⟩)

/-- NaN-propagating binary arithmetic on cell values. -/
def vbin (f : ℚ → ℚ → ℚ) : Value → Value → Value
  | some a, some b => some (f a b)
  | _, _ => none

/-- Label-based lookup of a cell of a slice (used by xarray reindexing). -/
def lookupCell (A : Slice2) (la lo : ℚ) : Value :=
  match (A.lat.findIdx? (fun x => decide (x = la))),
        (A.lon.findIdx? (fun x => decide (x = lo))) with
  | some i, some j => (A.vals.getD i []).getD j none
  | _, _ => none

/-- pandas' default inner join of two coordinate indexes: elements of
`a` that also occur in `b`, in the order of `a`. -/
def innerJoin (a b : List ℚ) : List ℚ := a.filter (fun x => decide (x ∈ b))

/-- xarray binary arithmetic between two labelled slices: positional
when the axes coincide, otherwise both operands are reindexed by label
to the inner join of the axes. -/
def binop (f : ℚ → ℚ → ℚ) (A B : Slice2) : Slice2 :=
  if A.lat = B.lat ∧ A.lon = B.lon then
    ⟨A.lat, A.lon, List.zipWith (List.zipWith (vbin f)) A.vals B.vals⟩
  else
    let jlat := innerJoin A.lat B.lat
    let jlon := innerJoin A.lon B.lon
    ⟨jlat, jlon,
      jlat.map (fun la => jlon.map (fun lo =>
        vbin f (lookupCell A la lo) (lookupCell B la lo)))⟩

/-- `x < 0` on a cell value; NaN compares false (as in numpy). -/
def vlt0 : Value → Bool
  | some q => decide (q < 0)
  | none => false

/-- `xr.where(x < 0, 0, x)` cellwise: clamp negatives, keep NaN. -/
def whereNeg (v : Value) : Value := if vlt0 v then some 0 else v

/-- Apply a cellwise function to a slice (coordinates unchanged). -/
def mapVals (g : Value → Value) (A : Slice2) : Slice2 :=
  ⟨A.lat, A.lon, A.vals.map (List.map g)⟩

/-- Errors raised by `calculate_lwf`: pandas `KeyError` from `.sel`
(the spec's `TimeAlignmentError`), numpy's broadcast `ValueError` from
the slice assignment (the spec's `ShapeMismatch`), and numpy's
negative-dimension `ValueError` from `np.zeros(len(time)-1, ...)` on an
empty time axis. -/
inductive LwfError
  | timeAlignmentError
  | shapeMismatch
  | emptyTime
deriving DecidableEq

/-- `lwf_data[t-1, :, :] = s`: positional numpy assignment of a 2-D
block into an `nlat × nlon` slice, with numpy's size-1 broadcasting on
each dimension; any other shape raises `ValueError`. -/
def setSlice (nlat nlon : Nat) (s : Slice2) : Except LwfError (List (List Value)) :=
  if (s.lat.length = nlat ∨ s.lat.length = 1) ∧
     (s.lon.length = nlon ∨ s.lon.length = 1) then
    .ok ((if s.lat.length = nlat then s.vals
          else List.replicate nlat (s.vals.getD 0 [])).map
      (fun r => if s.lon.length = nlon then r else List.replicate nlon (r.getD 0 none)))
  else .error .shapeMismatch

/-- Effectful map that stops at the first error, mirroring a Python
loop whose body may raise. -/
def mapME (f : α → Except ε β) : List α → Except ε (List β)
  | [] => .ok []
  | a :: l =>
    match f a with
    | .error e => .error e
    | .ok b =>
      match mapME f l with
      | .error e => .error e
      | .ok bs => .ok (b :: bs)

/-- Body of the `for t in range(1, len(swe.time))` loop of
`calculate_lwf`: select the current and previous SWE slices and the
current precipitation slice by timestamp, form
`swe_previous - swe_current + precip_current`, clamp negatives to zero,
divide by `86400 * 1000`, and assign the block into row `t-1` of the
pre-allocated output array. -/
def lwfRow (swe precip : DataArr) (t : Nat) : Except LwfError (List (List Value)) :=
  let current := swe.time.getD t 0
  let previous := swe.time.getD (t - 1) 0
  match selTime swe current with
  | none => .error .timeAlignmentError
  | some swe_current =>
    match selTime swe previous with
    | none => .error .timeAlignmentError
    | some swe_previous =>
      match selTime precip current with
      | none => .error .timeAlignmentError
      | some precip_current =>
        let lwf := binop (· + ·) (binop (· - ·) swe_previous swe_current) precip_current
        let lwf := mapVals whereNeg lwf
        let lwf := mapVals (Option.map (fun q => q / (86400 * 1000))) lwf
        setSlice swe.lat.length swe.lon.length lwf

/-- `calculate_lwf` of src/lwf_calc/lwf.py: the returned pair is
(`lwf_dataset` in m/s, `lwf_dataset_mm_day`); both share the time axis
`swe.time[1:]` and the spatial axes of the SWE input, and the mm/day
variant is the stored array multiplied by `86400 * 1000`. -/
def calculate_lwf (SNODAS_SWE CaPA : DataArr) : Except LwfError (DataArr × DataArr) :=
  if SNODAS_SWE.time.length = 0 then .error .emptyTime
  else
    match mapME (fun k => lwfRow SNODAS_SWE CaPA (k + 1))
        (List.range (SNODAS_SWE.time.length - 1)) with
    | .error e => .error e
    | .ok rows =>
      .ok (⟨SNODAS_SWE.time.drop 1, SNODAS_SWE.lat, SNODAS_SWE.lon, rows⟩,
           ⟨SNODAS_SWE.time.drop 1, SNODAS_SWE.lat, SNODAS_SWE.lon,
            rows.map (List.map (List.map (Option.map (fun q => q * 86400 * 1000))))⟩)

/-- Errors raised by `resample_SNODAS_to_CaPA`: `IndexError` from
`SNODAS_lat_range[0]` on an empty axis, and scipy's `QhullError` /
`ValueError` from `griddata` when the valid points cannot be
triangulated. -/
inductive ResampleError
  | indexError
  | qhullError
deriving DecidableEq

/-- An abstract piecewise-linear scattered interpolation kernel: given
the valid `((lat, lon), value)` samples, evaluate at one target point.
It abstracts scipy's Delaunay-based evaluation (which yields NaN
outside the convex hull); no claim below depends on its values. -/
abbrev Kernel := List ((ℚ × ℚ) × ℚ) → ℚ × ℚ → Value

/-- The flattened source grid points, in the order produced by
`np.column_stack((snodas_lat.flatten(), snodas_lon.flatten()))` after
`np.meshgrid(lon, lat)`: latitude-major. -/
def gridPoints (lat lon : List ℚ) : List (ℚ × ℚ) :=
  (lat.map (fun la => lon.map (fun lo => (la, lo)))).flatten

/-- The valid (non-NaN) source samples of time step `t`: grid points
zipped with the flattened SWE slice, NaN entries removed. -/
def stepPts (S : DataArr) (t : Nat) : List ((ℚ × ℚ) × ℚ) :=
  ((gridPoints S.lat S.lon).zip ((S.vals.getD t []).flatten)).filterMap
    (fun pv => pv.2.map (fun q => (pv.1, q)))

/-- `scipy.interpolate.griddata(pts, vals, targets, method='linear')`:
the Delaunay triangulation underneath raises for fewer than 3 sample
points in 2-D; otherwise every target grid cell gets the kernel's
value. -/
def griddataLinear (interp : Kernel) (pts : List ((ℚ × ℚ) × ℚ)) (tlat tlon : List ℚ) :
    Except ResampleError (List (List Value)) :=
  if pts.length < 3 then .error .qhullError
  else .ok (tlat.map (fun la => tlon.map (fun lo => interp pts (la, lo))))

/-- Select the entries of `xs` whose coordinate label (read in parallel
from `axis`) satisfies `p`. -/
def filterBy (axis : List ℚ) (p : ℚ → Bool) (xs : List α) : List α :=
  ((axis.zip xs).filter (fun q => p q.1)).map (fun q => q.2)

/-- `resample_SNODAS_to_CaPA` of src/lwf_calc/resample.py.

Crop: `CaPA.where(lon0 <= lon <= lonLast and lat0 <= lat <= latLast,
drop=True)` — the bounds are the **first and last** elements of the
SNODAS axes (`SNODAS_lon_range[0]`, `SNODAS_lon_range[-1]`, and
likewise for latitude), and `drop=True` removes a latitude row
(longitude column) when no cell of that row (column) satisfies the
separable condition.  Interpolation: per time step of the source,
`griddata` over the valid source samples, evaluated on the cropped
grid; the first step that cannot be triangulated aborts the run. -/
def resample_SNODAS_to_CaPA (interp : Kernel) (SNODAS_SWE CaPA : DataArr) :
    Except ResampleError (DataArr × DataArr) :=
  match SNODAS_SWE.lat.head?, SNODAS_SWE.lat.getLast?,
        SNODAS_SWE.lon.head?, SNODAS_SWE.lon.getLast? with
  | some lat0, some latN, some lon0, some lonN =>
    let condLat := fun la => decide (lat0 ≤ la ∧ la ≤ latN)
    let condLon := fun lo => decide (lon0 ≤ lo ∧ lo ≤ lonN)
    let keepLat := CaPA.lat.filter condLat
    let keepLon := CaPA.lon.filter condLon
    let croppedLat := if keepLon.isEmpty then [] else keepLat
    let croppedLon := if keepLat.isEmpty then [] else keepLon
    let cropped : DataArr :=
      ⟨CaPA.time, croppedLat, croppedLon,
       CaPA.vals.map (fun sl =>
         (filterBy CaPA.lat (fun la => condLat la && !keepLon.isEmpty) sl).map
           (fun row => filterBy CaPA.lon (fun lo => condLon lo && !keepLat.isEmpty) row))⟩
    match mapME (fun t => griddataLinear interp (stepPts SNODAS_SWE t) croppedLat croppedLon)
        (List.range SNODAS_SWE.time.length) with
    | .error e => .error e
    | .ok rows => .ok (⟨SNODAS_SWE.time, croppedLat, croppedLon, rows⟩, cropped)
  | _, _, _, _ => .error .indexError

/-- A dataset whose value array matches its coordinate axes
(the §3 invariant `values` dimensions = `time × lat × lon`). -/
def WellFormed (A : DataArr) : Prop :=
  A.vals.length = A.time.length ∧
  ∀ s ∈ A.vals, s.length = A.lat.length ∧ ∀ r ∈ s, r.length = A.lon.length

instance (A : DataArr) : Decidable (WellFormed A) := by
  unfold WellFormed; exact inferInstance

/-- The per-cell value stored by `calculate_lwf` in the m/s dataset:
`(swe_previous - swe_current + precip_current)` clamped at 0, divided
by `86400 * 1000`, with NaN propagation. -/
def rateCell (a b c : Value) : Value :=
  Option.map (fun q => q / (86400 * 1000))
    (whereNeg (vbin (· + ·) (vbin (· - ·) a b) c))

/-- The per-cell value of the mm/day dataset: the stored rate scaled
back by `86400 * 1000`. -/
def dailyCell (a b c : Value) : Value :=
  Option.map (fun q => q * 86400 * 1000) (rateCell a b c)

/-! ### List helper lemmas -/

theorem getD_map_lt (f : α → β) (l : List α) (i : Nat) (h : i < l.length) (d : β) (d' : α) :
    (l.map f).getD i d = f (l.getD i d') := by
  rw [List.getD_eq_getElem _ _ (by simpa using h), List.getD_eq_getElem _ _ h,
    List.getElem_map]

theorem getD_map_full (f : α → β) (d : α) :
    ∀ (l : List α) (i : Nat), (l.map f).getD i (f d) = f (l.getD i d)
  | [], 0 => rfl
  | [], _ + 1 => rfl
  | _ :: _, 0 => rfl
  | _ :: l, i + 1 => getD_map_full f d l i

theorem getD_zipWith_lt (f : α → β → γ) (as : List α) (bs : List β) (i : Nat)
    (ha : i < as.length) (hb : i < bs.length) (d : γ) (da : α) (db : β) :
    (List.zipWith f as bs).getD i d = f (as.getD i da) (bs.getD i db) := by
  have hl : i < (List.zipWith f as bs).length := by
    rw [List.length_zipWith]; exact lt_min_iff.mpr ⟨ha, hb⟩
  rw [List.getD_eq_getElem _ _ hl, List.getD_eq_getElem _ _ ha,
    List.getD_eq_getElem _ _ hb, List.getElem_zipWith]

theorem getD_mem_or : ∀ (l : List α) (i : Nat) (d : α), l.getD i d ∈ l ∨ l.getD i d = d
  | [], i, _ => Or.inr (by cases i <;> rfl)
  | _ :: _, 0, _ => Or.inl (by simp)
  | _ :: l, i + 1, d =>
    match getD_mem_or l i d with
    | Or.inl h => Or.inl (List.mem_cons_of_mem _ h)
    | Or.inr h => Or.inr h

theorem getD_mem (l : List α) (i : Nat) (d : α) (h : i < l.length) : l.getD i d ∈ l := by
  rw [List.getD_eq_getElem _ _ h]; exact List.getElem_mem h

/-! ### Lemmas about `idxOf?` (pandas first-match label lookup) -/

theorem idxOf?_of_mem {d : ℤ} :
    ∀ {l : List ℤ}, d ∈ l → ∃ i, idxOf? d l = some i ∧ i < l.length ∧ l.getD i 0 = d := by
  intro l hl
  induction l with
  | nil => simp at hl
  | cons x l ih =>
    by_cases hx : x = d
    · exact ⟨0, by simp [idxOf?, hx], by simp, hx⟩
    · have hd : d ∈ l := by
        rcases List.mem_cons.mp hl with h | h
        · exact absurd h.symm hx
        · exact h
      obtain ⟨i, hi1, hi2, hi3⟩ := ih hd
      exact ⟨i + 1, by simp [idxOf?, hx, hi1], by simpa using Nat.succ_lt_succ hi2, hi3⟩

theorem idxOf?_eq_none {d : ℤ} : ∀ {l : List ℤ}, d ∉ l → idxOf? d l = none := by
  intro l hl
  induction l with
  | nil => rfl
  | cons x l ih =>
    have hx : ¬(x = d) := fun h => hl (by simp [h])
    have hd : d ∉ l := fun h => hl (List.mem_cons_of_mem _ h)
    simp [idxOf?, hx, ih hd]

theorem idxOf?_nodup {d : ℤ} :
    ∀ {l : List ℤ}, l.Nodup → ∀ {i : Nat}, i < l.length → l.getD i 0 = d →
      idxOf? d l = some i := by
  intro l hnd i
  induction l generalizing i with
  | nil => simp
  | cons x l ih =>
    intro hi hget
    rcases List.nodup_cons.mp hnd with ⟨hx, hnd'⟩
    cases i with
    | zero => simp_all [idxOf?]
    | succ i =>
      have hi' : i < l.length := by simpa using hi
      have hget' : l.getD i 0 = d := hget
      have hxd : ¬(x = d) := by
        intro h
        exact hx (h ▸ hget' ▸ getD_mem l i 0 hi')
      simp [idxOf?, hxd, ih hnd' hi' hget']

/-! ### Lemmas about `mapME` -/

theorem mapME_ok_pointwise {f : α → Except ε β} :
    ∀ {l : List α}, (∀ a ∈ l, ∃ b, f a = .ok b) →
      ∃ bs, mapME f l = .ok bs ∧ bs.length = l.length ∧
        ∀ i, i < l.length → ∀ d d', f (l.getD i d) = .ok (bs.getD i d') := by
  intro l hl
  induction l with
  | nil => exact ⟨[], rfl, rfl, by simp⟩
  | cons a l ih =>
    obtain ⟨b, hb⟩ := hl a (by simp)
    obtain ⟨bs, h1, h2, h3⟩ := ih (fun x hx => hl x (List.mem_cons_of_mem _ hx))
    refine ⟨b :: bs, by simp [mapME, hb, h1], by simp [h2], ?_⟩
    intro i hi d d'
    cases i with
    | zero => simpa using hb
    | succ i => exact h3 i (by simpa using hi) d d'

theorem mapME_error_uniform {f : α → Except ε β} {e₀ : ε} :
    ∀ {l : List α}, (∀ a ∈ l, (∃ b, f a = .ok b) ∨ f a = .error e₀) →
      (∃ a ∈ l, f a = .error e₀) → mapME f l = .error e₀ := by
  intro l h1 h2
  induction l with
  | nil => simp at h2
  | cons a l ih =>
    rcases h1 a (by simp) with ⟨b, hb⟩ | hb
    · have h2' : ∃ x ∈ l, f x = .error e₀ := by
        obtain ⟨x, hx1, hx2⟩ := h2
        rcases List.mem_cons.mp hx1 with h | h
        · rw [h] at hx2; rw [hx2] at hb; exact absurd hb (by simp)
        · exact ⟨x, h, hx2⟩
      have := ih (fun x hx => h1 x (List.mem_cons_of_mem _ hx)) h2'
      simp [mapME, hb, this]
    · simp [mapME, hb]

theorem mapME_ok_mem {f : α → Except ε β} :
    ∀ {l : List α} {bs : List β}, mapME f l = .ok bs → ∀ b ∈ bs, ∃ a ∈ l, f a = .ok b := by
  intro l
  induction l with
  | nil =>
    intro bs h b hb
    simp only [mapME] at h
    cases h; simp at hb
  | cons a l ih =>
    intro bs h b hb
    simp only [mapME] at h
    cases hfa : f a with
    | error e => rw [hfa] at h; cases h
    | ok b0 =>
      rw [hfa] at h
      cases hml : mapME f l with
      | error e => rw [hml] at h; cases h
      | ok bs' =>
        rw [hml] at h
        cases h
        rcases List.mem_cons.mp hb with h | h
        · exact ⟨a, by simp, h ▸ hfa⟩
        · obtain ⟨x, hx1, hx2⟩ := ih hml b h
          exact ⟨x, List.mem_cons_of_mem _ hx1, hx2⟩

/-! ### Behaviour of `selTime` -/

theorem selTime_nodup (A : DataArr) (i : Nat) (hnd : A.time.Nodup) (hi : i < A.time.length)
    (d : ℤ) (hd : A.time.getD i 0 = d) :
    selTime A d = some ⟨A.lat, A.lon, A.vals.getD i []⟩ := by
  unfold selTime
  rw [idxOf?_nodup hnd hi hd]
  rfl

theorem selTime_none (A : DataArr) (d : ℤ) (hd : d ∉ A.time) : selTime A d = none := by
  unfold selTime
  rw [idxOf?_eq_none hd]
  rfl

/-! ### The loop body under aligned, well-formed inputs -/

theorem lwfRow_ok (swe precip : DataArr) (t : Nat)
    (_h1 : 1 ≤ t) (h2 : t < swe.time.length)
    (hlat : precip.lat = swe.lat) (hlon : precip.lon = swe.lon)
    (hws : WellFormed swe) (hwp : WellFormed precip)
    (hnds : swe.time.Nodup) (hndp : precip.time.Nodup)
    (ip : Nat) (hip : ip < precip.time.length)
    (hipEq : precip.time.getD ip 0 = swe.time.getD t 0) :
    ∃ row, lwfRow swe precip t = .ok row ∧ row.length = swe.lat.length ∧
      ∀ i j, i < swe.lat.length → j < swe.lon.length →
        (row.getD i []).getD j none =
          rateCell (cell swe (t - 1) i j) (cell swe t i j) (cell precip ip i j) := by
  have ht1 : t - 1 < swe.time.length := lt_of_le_of_lt (Nat.sub_le t 1) h2
  have hsel1 : selTime swe (swe.time.getD t 0) =
      some ⟨swe.lat, swe.lon, swe.vals.getD t []⟩ := selTime_nodup _ t hnds h2 _ rfl
  have hsel2 : selTime swe (swe.time.getD (t - 1) 0) =
      some ⟨swe.lat, swe.lon, swe.vals.getD (t - 1) []⟩ := selTime_nodup _ (t - 1) hnds ht1 _ rfl
  have hsel3 : selTime precip (swe.time.getD t 0) =
      some ⟨precip.lat, precip.lon, precip.vals.getD ip []⟩ := selTime_nodup _ ip hndp hip _ hipEq
  set A := swe.vals.getD (t - 1) [] with hAdef
  set B := swe.vals.getD t [] with hBdef
  set C := precip.vals.getD ip [] with hCdef
  have hmemA : A ∈ swe.vals := getD_mem _ _ _ (by rw [hws.1]; exact ht1)
  have hmemB : B ∈ swe.vals := getD_mem _ _ _ (by rw [hws.1]; exact h2)
  have hmemC : C ∈ precip.vals := getD_mem _ _ _ (by rw [hwp.1]; exact hip)
  have hA : A.length = swe.lat.length := (hws.2 _ hmemA).1
  have hB : B.length = swe.lat.length := (hws.2 _ hmemB).1
  have hC : C.length = swe.lat.length := by rw [(hwp.2 _ hmemC).1, hlat]
  set V1 := List.zipWith (List.zipWith (vbin (· - ·))) A B with hV1def
  set V2 := List.zipWith (List.zipWith (vbin (· + ·))) V1 C with hV2def
  have hV1 : V1.length = swe.lat.length := by
    rw [hV1def, List.length_zipWith, hA, hB, min_self]
  have hV2 : V2.length = swe.lat.length := by
    rw [hV2def, List.length_zipWith, hV1, hC, min_self]
  set M1 := V2.map (List.map whereNeg) with hM1def
  set M2 := M1.map (List.map (Option.map (fun q => q / (86400 * 1000)))) with hM2def
  have hM1 : M1.length = swe.lat.length := by rw [hM1def, List.length_map, hV2]
  have hM2 : M2.length = swe.lat.length := by rw [hM2def, List.length_map, hM1]
  have hrow : lwfRow swe precip t = .ok M2 := by
    simp only [lwfRow, hsel1, hsel2, hsel3, binop, hlat, hlon, and_self, if_true,
      mapVals, setSlice]
    simp [← hV1def, ← hV2def, ← hM1def, ← hM2def, hM2]
  refine ⟨M2, hrow, hM2, ?_⟩
  intro i j hi hj
  have hiA : i < A.length := by rw [hA]; exact hi
  have hiB : i < B.length := by rw [hB]; exact hi
  have hiC : i < C.length := by rw [hC]; exact hi
  have hiV1 : i < V1.length := by rw [hV1]; exact hi
  have hiV2 : i < V2.length := by rw [hV2]; exact hi
  have hiM1 : i < M1.length := by rw [hM1]; exact hi
  have hAi : (A.getD i []).length = swe.lon.length := (hws.2 _ hmemA).2 _ (getD_mem _ _ _ hiA)
  have hBi : (B.getD i []).length = swe.lon.length := (hws.2 _ hmemB).2 _ (getD_mem _ _ _ hiB)
  have hCi : (C.getD i []).length = swe.lon.length := by
    rw [(hwp.2 _ hmemC).2 _ (getD_mem _ _ _ hiC), hlon]
  have hstep1 : M2.getD i [] = List.map (Option.map (fun q => q / (86400 * 1000))) (M1.getD i []) :=
    getD_map_lt _ M1 i hiM1 [] []
  have hstep2 : M1.getD i [] = List.map whereNeg (V2.getD i []) :=
    getD_map_lt _ V2 i hiV2 [] []
  have hstep3 : V2.getD i [] = List.zipWith (vbin (· + ·)) (V1.getD i []) (C.getD i []) :=
    getD_zipWith_lt _ V1 C i hiV1 hiC [] [] []
  have hstep4 : V1.getD i [] = List.zipWith (vbin (· - ·)) (A.getD i []) (B.getD i []) :=
    getD_zipWith_lt _ A B i hiA hiB [] [] []
  have hjA : j < (A.getD i []).length := by rw [hAi]; exact hj
  have hjB : j < (B.getD i []).length := by rw [hBi]; exact hj
  have hjC : j < (C.getD i []).length := by rw [hCi]; exact hj
  have hjV1 : j < (List.zipWith (vbin (· - ·)) (A.getD i []) (B.getD i [])).length := by
    rw [List.length_zipWith, hAi, hBi, min_self]; exact hj
  have hjV2 : j < (List.zipWith (vbin (· + ·))
      (List.zipWith (vbin (· - ·)) (A.getD i []) (B.getD i [])) (C.getD i [])).length := by
    rw [List.length_zipWith]
    refine lt_min_iff.mpr ⟨hjV1, hjC⟩
  have hjM1 : j < (List.map whereNeg (List.zipWith (vbin (· + ·))
      (List.zipWith (vbin (· - ·)) (A.getD i []) (B.getD i [])) (C.getD i []))).length := by
    rw [List.length_map]; exact hjV2
  rw [hstep1, hstep2, hstep3, hstep4]
  rw [getD_map_lt _ _ j hjM1 none none, getD_map_lt _ _ j hjV2 none none,
    getD_zipWith_lt _ _ _ j hjV1 hjC none none none,
    getD_zipWith_lt _ _ _ j hjA hjB none none none]
  rfl

theorem cell_map3 (g : ℚ → ℚ) (rows : List (List (List Value))) (t i j : Nat) :
    (((rows.map (List.map (List.map (Option.map g)))).getD t []).getD i []).getD j none =
      Option.map g (((rows.getD t []).getD i []).getD j none) := by
  have h1 := getD_map_full (List.map (List.map (Option.map g))) [] rows t
  simp only [List.map_nil] at h1
  rw [h1]
  have h2 := getD_map_full (List.map (Option.map g)) [] (rows.getD t []) i
  simp only [List.map_nil] at h2
  rw [h2]
  have h3 := getD_map_full (Option.map g) none ((rows.getD t []).getD i []) j
  simp only [Option.map_none'] at h3
  rw [h3]

/-- Master lemma: under the §3/§4.2 preconditions (identical spatial
grids, well-formed arrays, unique timestamps, every required timestamp
present in `precip.time`), `calculate_lwf` succeeds and every in-range
output cell is `rateCell` / `dailyCell` of the three operands. -/
theorem calculate_lwf_ok (swe precip : DataArr)
    (hne : 0 < swe.time.length)
    (hlat : precip.lat = swe.lat) (hlon : precip.lon = swe.lon)
    (hws : WellFormed swe) (hwp : WellFormed precip)
    (hnds : swe.time.Nodup) (hndp : precip.time.Nodup)
    (htime : ∀ t, t < swe.time.length → 1 ≤ t → swe.time.getD t 0 ∈ precip.time) :
    ∃ rate daily, calculate_lwf swe precip = .ok (rate, daily) ∧
      rate.time = swe.time.drop 1 ∧ daily.time = swe.time.drop 1 ∧
      rate.lat = swe.lat ∧ rate.lon = swe.lon ∧
      daily.lat = swe.lat ∧ daily.lon = swe.lon ∧
      ∀ t, 1 ≤ t → t < swe.time.length →
        ∀ ip, ip < precip.time.length → precip.time.getD ip 0 = swe.time.getD t 0 →
          ∀ i j, i < swe.lat.length → j < swe.lon.length →
            cell rate (t - 1) i j =
              rateCell (cell swe (t - 1) i j) (cell swe t i j) (cell precip ip i j) ∧
            cell daily (t - 1) i j =
              dailyCell (cell swe (t - 1) i j) (cell swe t i j) (cell precip ip i j) := by
  have hstep : ∀ k ∈ List.range (swe.time.length - 1),
      ∃ row, lwfRow swe precip (k + 1) = .ok row := by
    intro k hk
    have hk' : k + 1 < swe.time.length := by
      have := List.mem_range.mp hk
      omega
    obtain ⟨ip, hip1, hip2, hip3⟩ := idxOf?_of_mem (htime (k + 1) hk' (by omega))
    obtain ⟨row, hrow, _, _⟩ :=
      lwfRow_ok swe precip (k + 1) (by omega) hk' hlat hlon hws hwp hnds hndp ip hip2 hip3
    exact ⟨row, hrow⟩
  obtain ⟨rows, hrows, hlen, hpt⟩ := mapME_ok_pointwise hstep
  have hcomp : calculate_lwf swe precip =
      .ok (⟨swe.time.drop 1, swe.lat, swe.lon, rows⟩,
           ⟨swe.time.drop 1, swe.lat, swe.lon,
            rows.map (List.map (List.map (Option.map (fun q => q * 86400 * 1000))))⟩) := by
    simp only [calculate_lwf, hrows]
    rw [if_neg (by omega)]
  refine ⟨_, _, hcomp, rfl, rfl, rfl, rfl, rfl, rfl, ?_⟩
  intro t ht1 ht2 ip hip1 hip2 i j hi hj
  have htk : t - 1 < swe.time.length - 1 := by omega
  have hrange : (List.range (swe.time.length - 1)).getD (t - 1) 0 = t - 1 := by
    rw [List.getD_eq_getElem _ _ (by simpa using htk), List.getElem_range]
  have hpt' := hpt (t - 1) (by simpa using htk) 0 []
  rw [hrange] at hpt'
  have ht11 : t - 1 + 1 = t := by omega
  rw [ht11] at hpt'
  obtain ⟨row, hrow, _, hcells⟩ :=
    lwfRow_ok swe precip t ht1 ht2 hlat hlon hws hwp hnds hndp ip hip1 hip2
  rw [hrow] at hpt'
  have hroweq : row = rows.getD (t - 1) [] := by
    injection hpt'
  constructor
  · show ((rows.getD (t - 1) []).getD i []).getD j none = _
    rw [← hroweq]
    exact hcells i j hi hj
  · show (((rows.map (List.map (List.map (Option.map (fun q => q * 86400 * 1000))))).getD
        (t - 1) []).getD i []).getD j none = _
    rw [cell_map3]
    show Option.map _ (((rows.getD (t - 1) []).getD i []).getD j none) = _
    rw [← hroweq, hcells i j hi hj]
    rfl

/-! ### Evaluation of the per-cell formulas -/

theorem rateCell_some (a b c : ℚ) :
    rateCell (some a) (some b) (some c) = some (max 0 (a - b + c) / 86400000) := by
  have h86 : (86400 : ℚ) * 1000 = 86400000 := by norm_num
  simp only [rateCell, vbin, whereNeg, vlt0]
  by_cases h : a - b + c < 0
  · rw [if_pos (by simpa using h)]
    simp [max_eq_left (le_of_lt h)]
  · rw [if_neg (by simpa using h)]
    simp [max_eq_right (not_lt.mp h), h86]

theorem dailyCell_some (a b c : ℚ) :
    dailyCell (some a) (some b) (some c) = some (max 0 (a - b + c)) := by
  rw [dailyCell, rateCell_some]
  simp only [Option.map_some', Option.some.injEq]
  field_simp
  ring

theorem rateCell_none (a b c : Value) (h : a = none ∨ b = none ∨ c = none) :
    rateCell a b c = none := by
  rcases h with h | h | h <;> subst h <;>
    first
      | (cases a <;> cases b <;> rfl)
      | (cases a <;> cases c <;> rfl)
      | (cases b <;> cases c <;> rfl)

theorem dailyCell_none (a b c : Value) (h : a = none ∨ b = none ∨ c = none) :
    dailyCell a b c = none := by
  rw [dailyCell, rateCell_none a b c h]
  rfl

theorem selTime_of_mem (A : DataArr) (d : ℤ) (hd : d ∈ A.time) :
    ∃ i, selTime A d = some ⟨A.lat, A.lon, A.vals.getD i []⟩ := by
  obtain ⟨i, h1, _, _⟩ := idxOf?_of_mem hd
  refine ⟨i, ?_⟩
  unfold selTime
  rw [h1]
  rfl

theorem lwfRow_timeErr (swe precip : DataArr) (t : Nat)
    (h2 : t < swe.time.length) (hnds : swe.time.Nodup)
    (hmiss : swe.time.getD t 0 ∉ precip.time) :
    lwfRow swe precip t = .error .timeAlignmentError := by
  have ht1 : t - 1 < swe.time.length := lt_of_le_of_lt (Nat.sub_le t 1) h2
  have hsel1 := selTime_nodup swe t hnds h2 _ rfl
  have hsel2 := selTime_nodup swe (t - 1) hnds ht1 _ rfl
  have hsel3 : selTime precip (swe.time.getD t 0) = none := selTime_none _ _ hmiss
  simp only [lwfRow, hsel1, hsel2, hsel3]

/-! ### The claims -/

/-- C1: for every pair of spatially-aligned inputs satisfying the §3
invariants and the time-alignment precondition, and every output index
`t` in `1..N-1`, at every cell where all three operands are valid,
`calculate_lwf` produces `flux = max 0 (swe[t-1] - swe[t] + precip[t])`
with `lwf_daily = flux` and `lwf_rate = flux / 86400000`. -/
theorem claim_C1 (swe precip : DataArr)
    (hne : 0 < swe.time.length)
    (hlat : precip.lat = swe.lat) (hlon : precip.lon = swe.lon)
    (hws : WellFormed swe) (hwp : WellFormed precip)
    (hnds : swe.time.Nodup) (hndp : precip.time.Nodup)
    (htime : ∀ t, t < swe.time.length → 1 ≤ t → swe.time.getD t 0 ∈ precip.time) :
    ∃ rate daily, calculate_lwf swe precip = .ok (rate, daily) ∧
      ∀ t, 1 ≤ t → t < swe.time.length →
        ∀ ip, ip < precip.time.length → precip.time.getD ip 0 = swe.time.getD t 0 →
          ∀ i j, i < swe.lat.length → j < swe.lon.length →
            ∀ a b c : ℚ, cell swe (t - 1) i j = some a → cell swe t i j = some b →
              cell precip ip i j = some c →
              cell daily (t - 1) i j = some (max 0 (a - b + c)) ∧
              cell rate (t - 1) i j = some (max 0 (a - b + c) / 86400000) := by
  obtain ⟨rate, daily, hok, -, -, -, -, -, -, hcells⟩ :=
    calculate_lwf_ok swe precip hne hlat hlon hws hwp hnds hndp htime
  refine ⟨rate, daily, hok, ?_⟩
  intro t ht1 ht2 ip hip1 hip2 i j hi hj a b c ha hb hc
  obtain ⟨hr, hd⟩ := hcells t ht1 ht2 ip hip1 hip2 i j hi hj
  rw [ha, hb, hc] at hr hd
  rw [dailyCell_some] at hd
  rw [rateCell_some] at hr
  exact ⟨hd, hr⟩

/-- C4: under the same preconditions, if any of the three operands at a
cell is the no-data sentinel then the corresponding cell of both
outputs is the no-data sentinel, never a number. -/
theorem claim_C4 (swe precip : DataArr)
    (hne : 0 < swe.time.length)
    (hlat : precip.lat = swe.lat) (hlon : precip.lon = swe.lon)
    (hws : WellFormed swe) (hwp : WellFormed precip)
    (hnds : swe.time.Nodup) (hndp : precip.time.Nodup)
    (htime : ∀ t, t < swe.time.length → 1 ≤ t → swe.time.getD t 0 ∈ precip.time) :
    ∃ rate daily, calculate_lwf swe precip = .ok (rate, daily) ∧
      ∀ t, 1 ≤ t → t < swe.time.length →
        ∀ ip, ip < precip.time.length → precip.time.getD ip 0 = swe.time.getD t 0 →
          ∀ i j, i < swe.lat.length → j < swe.lon.length →
            (cell swe (t - 1) i j = none ∨ cell swe t i j = none ∨
              cell precip ip i j = none) →
            cell rate (t - 1) i j = none ∧ cell daily (t - 1) i j = none := by
  obtain ⟨rate, daily, hok, -, -, -, -, -, -, hcells⟩ :=
    calculate_lwf_ok swe precip hne hlat hlon hws hwp hnds hndp htime
  refine ⟨rate, daily, hok, ?_⟩
  intro t ht1 ht2 ip hip1 hip2 i j hi hj hnone
  obtain ⟨hr, hd⟩ := hcells t ht1 ht2 ip hip1 hip2 i j hi hj
  rw [rateCell_none _ _ _ hnone] at hr
  rw [dailyCell_none _ _ _ hnone] at hd
  exact ⟨hr, hd⟩

/-- C5: `calculate_lwf` looks precipitation up by exact timestamp
value; under aligned, well-formed inputs, if any required timestamp of
`swe.time[1:]` has no exact match in `precip.time`, it signals the
time-alignment error (pandas `KeyError`). -/
theorem claim_C5 (swe precip : DataArr)
    (hlat : precip.lat = swe.lat) (hlon : precip.lon = swe.lon)
    (hws : WellFormed swe) (hwp : WellFormed precip)
    (hnds : swe.time.Nodup) (hndp : precip.time.Nodup)
    (hmiss : ∃ t, 1 ≤ t ∧ t < swe.time.length ∧ swe.time.getD t 0 ∉ precip.time) :
    calculate_lwf swe precip = .error .timeAlignmentError := by
  obtain ⟨t0, ht0a, ht0b, ht0c⟩ := hmiss
  unfold calculate_lwf
  rw [if_neg (by omega)]
  have hmap : mapME (fun k => lwfRow swe precip (k + 1))
      (List.range (swe.time.length - 1)) = .error .timeAlignmentError := by
    apply mapME_error_uniform
    · intro k hk
      have hk' : k + 1 < swe.time.length := by
        have := List.mem_range.mp hk; omega
      by_cases hmem : swe.time.getD (k + 1) 0 ∈ precip.time
      · left
        obtain ⟨ip, hip1, hip2, hip3⟩ := idxOf?_of_mem hmem
        obtain ⟨row, hrow, -, -⟩ := lwfRow_ok swe precip (k + 1) (by omega) hk'
          hlat hlon hws hwp hnds hndp ip hip2 hip3
        exact ⟨row, hrow⟩
      · exact Or.inr (lwfRow_timeErr swe precip (k + 1) hk' hnds hmem)
    · refine ⟨t0 - 1, List.mem_range.mpr (by omega), ?_⟩
      have ht : t0 - 1 + 1 = t0 := by omega
      rw [ht]
      exact lwfRow_timeErr swe precip t0 ht0b hnds ht0c
  rw [hmap]

/-- C6: whenever `calculate_lwf` succeeds, both outputs carry the time
axis `swe.time[1:]` exactly: the first input timestamp produces no
output row. -/
theorem claim_C6 (swe precip rate daily : DataArr)
    (h : calculate_lwf swe precip = .ok (rate, daily)) :
    rate.time = swe.time.drop 1 ∧ daily.time = swe.time.drop 1 := by
  unfold calculate_lwf at h
  by_cases h0 : swe.time.length = 0
  · rw [if_pos h0] at h; cases h
  · rw [if_neg h0] at h
    cases hm : mapME (fun k => lwfRow swe precip (k + 1))
        (List.range (swe.time.length - 1)) with
    | error e => rw [hm] at h; cases h
    | ok rows =>
      rw [hm] at h
      injection h with h'
      simp only [Prod.mk.injEq] at h'
      exact ⟨by rw [← h'.1], by rw [← h'.2]⟩

/-- C8: whenever `calculate_lwf` succeeds, every valid cell of the two
outputs satisfies the exact unit round-trip
`lwf_rate * 86400000 = lwf_daily`; both are scalings of the single
stored flux array. -/
theorem claim_C8 (swe precip rate daily : DataArr)
    (h : calculate_lwf swe precip = .ok (rate, daily)) :
    ∀ t i j (q : ℚ), cell rate t i j = some q →
      cell daily t i j = some (q * 86400000) := by
  unfold calculate_lwf at h
  by_cases h0 : swe.time.length = 0
  · rw [if_pos h0] at h; cases h
  · rw [if_neg h0] at h
    cases hm : mapME (fun k => lwfRow swe precip (k + 1))
        (List.range (swe.time.length - 1)) with
    | error e => rw [hm] at h; cases h
    | ok rows =>
      rw [hm] at h
      injection h with h'
      simp only [Prod.mk.injEq] at h'
      obtain ⟨h1, h2⟩ := h'
      intro t i j q hq
      have hdv : daily.vals =
          rows.map (List.map (List.map (Option.map (fun q => q * 86400 * 1000)))) := by
        rw [← h2]
      have hrv : rate.vals = rows := by rw [← h1]
      show ((daily.vals.getD t []).getD i []).getD j none = _
      rw [hdv, cell_map3]
      have : ((rows.getD t []).getD i []).getD j none = some q := by
        rw [← hrv]; exact hq
      rw [this]
      simp only [Option.map_some', Option.some.injEq]
      ring

/-- C10: when `swe.time` has exactly one entry (violating the stated
at-least-2 precondition), `calculate_lwf` does not raise: it returns
two datasets with an empty time axis and zero value rows. -/
theorem claim_C10 (swe precip : DataArr) (h : swe.time.length = 1) :
    calculate_lwf swe precip =
      .ok (⟨[], swe.lat, swe.lon, []⟩, ⟨[], swe.lat, swe.lon, []⟩) := by
  unfold calculate_lwf
  rw [if_neg (by omega)]
  have hdrop : swe.time.drop 1 = [] := by
    have := List.drop_eq_nil_iff.mpr (le_of_eq h)
    simpa using this
  rw [h]
  simp [mapME, hdrop]

/-! ### Non-negativity infrastructure (claim C7) -/

theorem setSlice_mem {nlat nlon : Nat} {s : Slice2} {row : List (List Value)}
    (h : setSlice nlat nlon s = .ok row) :
    ∀ r ∈ row, ∀ v ∈ r, (∃ r₀ ∈ s.vals, v ∈ r₀) ∨ v = none := by
  unfold setSlice at h
  split at h
  case isFalse => cases h
  case isTrue hcond =>
    injection h with h'
    subst h'
    intro r hr v hv
    obtain ⟨r0, hr0, hrF⟩ := List.mem_map.mp hr
    have hr0' : r0 ∈ s.vals ∨ r0 = [] := by
      by_cases hlat : s.lat.length = nlat
      · rw [if_pos hlat] at hr0
        exact Or.inl hr0
      · rw [if_neg hlat] at hr0
        have := List.eq_of_mem_replicate hr0
        rw [this]
        rcases getD_mem_or s.vals 0 [] with hm | hm
        · exact Or.inl hm
        · exact Or.inr hm
    have hvr : v ∈ r0 ∨ v = none := by
      by_cases hlon : s.lon.length = nlon
      · rw [if_pos hlon] at hrF
        exact Or.inl (hrF ▸ hv)
      · rw [if_neg hlon] at hrF
        rw [← hrF] at hv
        have := List.eq_of_mem_replicate hv
        rw [this]
        rcases getD_mem_or r0 0 none with hm | hm
        · exact Or.inl hm
        · exact Or.inr hm
    rcases hvr with hvr | hvr
    · rcases hr0' with hr0' | hr0'
      · exact Or.inl ⟨r0, hr0', hvr⟩
      · rw [hr0'] at hvr
        simp at hvr
    · exact Or.inr hvr

theorem lwfRow_NN (swe precip : DataArr) (t : Nat) (row : List (List Value))
    (h : lwfRow swe precip t = .ok row) :
    ∀ r ∈ row, ∀ v ∈ r, ∀ q : ℚ, v = some q → 0 ≤ q := by
  simp only [lwfRow] at h
  split at h
  · cases h
  split at h
  · cases h
  split at h
  · cases h
  intro r hr v hv q hq
  rcases setSlice_mem h r hr v hv with ⟨r₀, hr₀, hv₀⟩ | hnone
  · simp only [mapVals] at hr₀
    obtain ⟨r₁, hr₁, hrw⟩ := List.mem_map.mp hr₀
    obtain ⟨r₂, hr₂, hrw₂⟩ := List.mem_map.mp hr₁
    rw [← hrw] at hv₀
    obtain ⟨w, hw, hvw⟩ := List.mem_map.mp hv₀
    rw [← hrw₂] at hw
    obtain ⟨u, hu, huw⟩ := List.mem_map.mp hw
    rw [← hvw, ← huw] at hq
    cases u with
    | none => simp [whereNeg, vlt0] at hq
    | some w' =>
      by_cases hneg : w' < 0
      · simp only [whereNeg, vlt0, decide_eq_true_eq, if_pos hneg,
          Option.map_some', Option.some.injEq] at hq
        rw [← hq]
        norm_num
      · simp only [whereNeg, vlt0, decide_eq_true_eq, if_neg hneg,
          Option.map_some', Option.some.injEq] at hq
        rw [← hq]
        have hw0 : (0 : ℚ) ≤ w' := not_lt.mp hneg
        positivity
  · rw [hnone] at hq
    cases hq

/-- C7: every valid (non-no-data) cell of both outputs of
`calculate_lwf` is non-negative, for any inputs on which the
computation succeeds. -/
theorem claim_C7 (swe precip rate daily : DataArr)
    (h : calculate_lwf swe precip = .ok (rate, daily)) :
    (∀ t i j (q : ℚ), cell rate t i j = some q → 0 ≤ q) ∧
    (∀ t i j (q : ℚ), cell daily t i j = some q → 0 ≤ q) := by
  unfold calculate_lwf at h
  by_cases h0 : swe.time.length = 0
  · rw [if_pos h0] at h; cases h
  rw [if_neg h0] at h
  cases hm : mapME (fun k => lwfRow swe precip (k + 1))
      (List.range (swe.time.length - 1)) with
  | error e => rw [hm] at h; cases h
  | ok rows =>
    rw [hm] at h
    injection h with h'
    simp only [Prod.mk.injEq] at h'
    obtain ⟨h1, h2⟩ := h'
    have hNN : ∀ t i j (q : ℚ),
        ((rows.getD t []).getD i []).getD j none = some q → 0 ≤ q := by
      intro t i j q hq
      rcases getD_mem_or ((rows.getD t []).getD i []) j none with hv | hv
      · rcases getD_mem_or (rows.getD t []) i [] with hrm | hrm
        · rcases getD_mem_or rows t [] with hRm | hRm
          · obtain ⟨k, -, hlw⟩ := mapME_ok_mem hm _ hRm
            exact lwfRow_NN swe precip (k + 1) _ hlw _ hrm _ hv q (hq ▸ rfl)
          · rw [hRm] at hrm
            simp at hrm
        · rw [hrm] at hv
          simp at hv
      · rw [hv] at hq
        cases hq
    constructor
    · intro t i j q hq
      have hrv : rate.vals = rows := by rw [← h1]
      apply hNN t i j q
      rw [← hrv]
      exact hq
    · intro t i j q hq
      have hdv : daily.vals =
          rows.map (List.map (List.map (Option.map (fun q => q * 86400 * 1000)))) := by
        rw [← h2]
      have hq' : ((daily.vals.getD t []).getD i []).getD j none = some q := hq
      rw [hdv, cell_map3] at hq'
      obtain ⟨q₀, hq₀, hqs⟩ := Option.map_eq_some'.mp hq'
      have : (0 : ℚ) ≤ q₀ := hNN t i j q₀ hq₀
      rw [← hqs]
      positivity

/-- C9 (amended): `calculate_lwf` performs no explicit grid check.
When the latitude label sets of the two inputs are disjoint (and the
SWE grid has at least two latitudes), xarray's label alignment leaves
an empty intersection whose shape cannot broadcast into the output
slice, so the computation fails with the shape ValueError; but grids
that merely differ in axis order are label-aligned and do not error
(see the counterexample). -/
theorem claim_C9_amended (swe precip : DataArr)
    (hN : 2 ≤ swe.time.length)
    (hmem : swe.time.getD 1 0 ∈ precip.time)
    (hlat2 : 2 ≤ swe.lat.length)
    (hdisj : ∀ x ∈ swe.lat, x ∉ precip.lat) :
    calculate_lwf swe precip = .error .shapeMismatch := by
  have hrow1 : lwfRow swe precip 1 = .error .shapeMismatch := by
    obtain ⟨i1, hs1⟩ := selTime_of_mem swe _ (getD_mem _ 1 0 (by omega))
    have h10 : (1 : Nat) - 1 = 0 := rfl
    obtain ⟨i0, hs0⟩ := selTime_of_mem swe _ (getD_mem _ 0 0 (by omega))
    obtain ⟨ipp, hsp⟩ := selTime_of_mem precip _ hmem
    have hne : ¬(swe.lat = precip.lat ∧ swe.lon = precip.lon) := by
      rintro ⟨he, -⟩
      have hx : swe.lat.getD 0 0 ∈ swe.lat := getD_mem _ 0 0 (by omega)
      exact hdisj _ hx (he ▸ hx)
    have hjlat : innerJoin swe.lat precip.lat = [] := by
      unfold innerJoin
      rw [List.filter_eq_nil_iff]
      intro x hx
      simpa using hdisj x hx
    simp only [lwfRow, h10, hs1, hs0, hsp, binop, and_self, if_true, hjlat]
    rw [if_neg hne]
    simp only [mapVals, setSlice, List.map_nil, List.length_nil]
    rw [if_neg (by rintro ⟨h | h, -⟩ <;> omega)]
  unfold calculate_lwf
  rw [if_neg (by omega)]
  have hrange : List.range (swe.time.length - 1) =
      0 :: List.map Nat.succ (List.range (swe.time.length - 2)) := by
    have h21 : swe.time.length - 1 = (swe.time.length - 2) + 1 := by omega
    rw [h21, List.range_succ_eq_map]
  rw [hrange]
  simp only [mapME, hrow1]

/-- C3 (amended): a time step with fewer than 3 valid source points
makes the Delaunay triangulation inside `griddata` raise, aborting the
whole resample run (no per-step degradation to no-data occurs). -/
theorem claim_C3_amended (interp : Kernel) (S T : DataArr)
    (hlat : S.lat ≠ []) (hlon : S.lon ≠ [])
    (hbad : ∃ t, t < S.time.length ∧ (stepPts S t).length < 3) :
    resample_SNODAS_to_CaPA interp S T = .error .qhullError := by
  obtain ⟨lat0, hlat0⟩ := Option.isSome_iff_exists.mp (List.head?_isSome.mpr hlat)
  obtain ⟨latN, hlatN⟩ := Option.isSome_iff_exists.mp (List.getLast?_isSome.mpr hlat)
  obtain ⟨lon0, hlon0⟩ := Option.isSome_iff_exists.mp (List.head?_isSome.mpr hlon)
  obtain ⟨lonN, hlonN⟩ := Option.isSome_iff_exists.mp (List.getLast?_isSome.mpr hlon)
  have hm : ∀ tlat tlon : List ℚ,
      mapME (fun t => griddataLinear interp (stepPts S t) tlat tlon)
        (List.range S.time.length) = .error .qhullError := by
    intro tlat tlon
    apply mapME_error_uniform
    · intro t _
      unfold griddataLinear
      split
      · exact Or.inr rfl
      · exact Or.inl ⟨_, rfl⟩
    · obtain ⟨t, ht1, ht2⟩ := hbad
      refine ⟨t, List.mem_range.mpr ht1, ?_⟩
      unfold griddataLinear
      rw [if_pos ht2]
  simp only [resample_SNODAS_to_CaPA, hlat0, hlatN, hlon0, hlonN, hm]

/-- C2 (amended): the crop retains exactly the target cells whose
coordinates lie between the **first and last** elements of the source
axes (`SNODAS_lat_range[0]`/`[-1]`), which coincide with min/max only
for ascending axes; the cropped target keeps the target's full time
axis unchanged. -/
theorem claim_C2_amended (interp : Kernel) (S T : DataArr)
    (lat0 latN lon0 lonN : ℚ)
    (h1 : S.lat.head? = some lat0) (h2 : S.lat.getLast? = some latN)
    (h3 : S.lon.head? = some lon0) (h4 : S.lon.getLast? = some lonN)
    (r c : DataArr)
    (hok : resample_SNODAS_to_CaPA interp S T = .ok (r, c)) :
    c.time = T.time ∧
    ∀ la lo : ℚ, (la ∈ c.lat ∧ lo ∈ c.lon) ↔
      (la ∈ T.lat ∧ lo ∈ T.lon ∧
        lat0 ≤ la ∧ la ≤ latN ∧ lon0 ≤ lo ∧ lo ≤ lonN) := by
  unfold resample_SNODAS_to_CaPA at hok
  rw [h1, h2, h3, h4] at hok
  set kLat := T.lat.filter (fun la => decide (lat0 ≤ la ∧ la ≤ latN)) with hkLat
  set kLon := T.lon.filter (fun lo => decide (lon0 ≤ lo ∧ lo ≤ lonN)) with hkLon
  dsimp only [] at hok
  split at hok
  case h_1 => cases hok
  case h_2 =>
    injection hok with h'
    simp only [Prod.mk.injEq] at h'
    obtain ⟨-, hc⟩ := h'
    subst hc
    refine ⟨rfl, ?_⟩
    intro la lo
    have hmemLat : la ∈ kLat ↔ (la ∈ T.lat ∧ lat0 ≤ la ∧ la ≤ latN) := by
      rw [hkLat]
      simp [List.mem_filter]
    have hmemLon : lo ∈ kLon ↔ (lo ∈ T.lon ∧ lon0 ≤ lo ∧ lo ≤ lonN) := by
      rw [hkLon]
      simp [List.mem_filter]
    show (la ∈ (if kLon.isEmpty then [] else kLat) ∧
          lo ∈ (if kLat.isEmpty then [] else kLon)) ↔ _
    by_cases hNLat : kLat = [] <;> by_cases hNLon : kLon = []
    · rw [hNLat] at hmemLat
      rw [hNLon] at hmemLon
      simp only [hNLat, hNLon, List.isEmpty_nil, if_true]
      simp only [List.not_mem_nil] at hmemLat hmemLon ⊢
      constructor
      · rintro ⟨h, -⟩; exact absurd h (by simp)
      · rintro ⟨hla, hlo, hb1, hb2, -⟩
        exact absurd ⟨hla, hb1, hb2⟩ (fun hh => hmemLat.symm.mp hh)
    · rw [hNLat] at hmemLat
      have hE : kLon.isEmpty = false := by
        simpa [List.isEmpty_iff] using hNLon
      simp only [hNLat, List.isEmpty_nil, hE, if_true, if_false, Bool.false_eq_true]
      simp only [List.not_mem_nil] at hmemLat ⊢
      constructor
      · rintro ⟨h, -⟩; exact absurd h (by simp)
      · rintro ⟨hla, hlo, hb1, hb2, -⟩
        exact absurd ⟨hla, hb1, hb2⟩ (fun hh => hmemLat.symm.mp hh)
    · rw [hNLon] at hmemLon
      have hE : kLat.isEmpty = false := by
        simpa [List.isEmpty_iff] using hNLat
      simp only [hNLon, List.isEmpty_nil, hE, if_true, if_false, Bool.false_eq_true]
      simp only [List.not_mem_nil] at hmemLon ⊢
      constructor
      · rintro ⟨-, h⟩; exact absurd h (by simp)
      · rintro ⟨hla, hlo, hb1, hb2, hb3, hb4⟩
        exact absurd ⟨hlo, hb3, hb4⟩ (fun hh => hmemLon.symm.mp hh)
    · have hELat : kLat.isEmpty = false := by
        simpa [List.isEmpty_iff] using hNLat
      have hELon : kLon.isEmpty = false := by
        simpa [List.isEmpty_iff] using hNLon
      simp only [hELat, hELon, Bool.false_eq_true, if_false]
      rw [hmemLat, hmemLon]
      tauto

/-! ### Concrete inputs for witnesses and counterexamples -/

section Concrete

attribute [local semireducible] Rat.mul Rat.inv Rat.add Rat.sub

/-- Trivial interpolation kernel used to instantiate `resample`;
the crop and error paths checked below never consult it. -/
def kNone : Kernel := fun _ _ => none

/-- A 2×2 block holding value `q` everywhere. -/
def uniformCells (q : ℚ) : List (List Value) := [[some q, some q], [some q, some q]]

/-- Scenario SWE 10 → 8 (uniform) on a 2×2 grid over days 0, 1. -/
def scenSwe : DataArr := ⟨[0, 1], [0, 1], [0, 1], [uniformCells 10, uniformCells 8]⟩

/-- Scenario precipitation: 0 on day 0, uniform 1 on day 1. -/
def scenPre : DataArr := ⟨[0, 1], [0, 1], [0, 1], [uniformCells 0, uniformCells 1]⟩

/-- Scenario SWE 8 → 10 (uniform), producing a negative raw flux. -/
def scenSwe2 : DataArr := ⟨[0, 1], [0, 1], [0, 1], [uniformCells 8, uniformCells 10]⟩

/-- Expected m/s output for the 10 → 8 scenario. -/
def scenRate : DataArr := ⟨[1], [0, 1], [0, 1], [uniformCells (3 / 86400000)]⟩

/-- Expected mm/day output for the 10 → 8 scenario. -/
def scenDaily : DataArr := ⟨[1], [0, 1], [0, 1], [uniformCells 3]⟩

/-- SWE input with one no-data cell at day 0, cell (0,1). -/
def mixSwe : DataArr :=
  ⟨[0, 1], [0, 1], [0, 1],
   [[[some 10, none], [some 10, some 10]], [[some 8, some 8], [some 8, some 8]]]⟩

/-- SWE input for the time-misalignment witness. -/
def w5Swe : DataArr := ⟨[0, 1], [0], [0], [[[some 1]], [[some 1]]]⟩

/-- Precipitation lacking the required timestamp 1. -/
def w5Pre : DataArr := ⟨[0], [0], [0], [[[some 1]]]⟩

/-- Single-timestamp SWE input (violates the N ≥ 2 precondition). -/
def w10Swe : DataArr := ⟨[5], [0], [0], [[[some 2]]]⟩

/-- SWE input whose latitude axis is disjoint from `w9Pre`'s. -/
def w9Swe : DataArr := ⟨[0, 1], [0, 1], [0], [[[some 1], [some 1]], [[some 1], [some 1]]]⟩

/-- Precipitation on latitudes 7, 8 — disjoint from `w9Swe`'s. -/
def w9Pre : DataArr := ⟨[0, 1], [7, 8], [0], [[[some 1], [some 1]], [[some 1], [some 1]]]⟩

/-- SWE grid with reversed-order latitudes relative to `cexSwe9`. -/
def cexSwe9 : DataArr := ⟨[0, 1], [0, 1], [5], [[[some 10], [some 20]], [[some 8], [some 16]]]⟩

/-- Precipitation whose latitude axis is `cexSwe9`'s reversed: same
label set, different order. -/
def cexPre9 : DataArr := ⟨[0, 1], [1, 0], [5], [[[some 0], [some 0]], [[some 2], [some 1]]]⟩

/-- Source grid with a descending latitude axis [2, 0]. -/
def cexSrc2 : DataArr := ⟨[0], [2, 0], [0, 1], [[[some 1, some 1], [some 1, some 1]]]⟩

/-- Target grid with latitude 1, inside the min/max box [0, 2] of `cexSrc2`. -/
def cexTgt2 : DataArr := ⟨[0], [1], [0, 1], [[[some 5, some 6]]]⟩

/-- Source with only 2 valid (non-no-data) points at its single time step. -/
def cexSrc3 : DataArr := ⟨[0], [0, 1], [0, 1], [[[some 1, none], [none, some 1]]]⟩

/-- Source with exactly 1 valid point at its single time step. -/
def w3Src : DataArr := ⟨[0], [0, 1], [0, 1], [[[none, none], [none, some 1]]]⟩

/-- Small target grid for the resample witnesses. -/
def w3Tgt : DataArr := ⟨[0], [0], [0], [[[some 1]]]⟩

/-- Ascending source grid for the crop witness. -/
def srcW : DataArr := ⟨[0], [0, 2], [0, 2], [[[some 1, some 1], [some 1, some 1]]]⟩

/-- Target grid with latitudes −1, 1, 3 and longitudes 1, 5. -/
def tgtW : DataArr :=
  ⟨[7, 8], [-1, 1, 3], [1, 5],
   [[[some 1, some 2], [some 3, some 4], [some 5, some 6]],
    [[some 7, some 8], [some 9, some 10], [some 11, some 12]]]⟩

/-- Resampled output of `resample kNone srcW tgtW`. -/
def rW : DataArr := ⟨[0], [1], [1], [[[none]]]⟩

/-- Cropped target of `resample kNone srcW tgtW`. -/
def cW : DataArr := ⟨[7, 8], [1], [1], [[[some 3]], [[some 9]]]⟩

/-! ### Witnesses and counterexamples -/

/-- Witness for C1 at the spec's scenarios: the general theorem applies
to the uniform 10 → 8 inputs, and concretely the 10 → 8 scenario yields
3 mm/day (rate 3/86400000) everywhere while the 8 → 10 scenario clamps
to 0 everywhere. -/
theorem claim_C1_witness :
    (∃ rate daily, calculate_lwf scenSwe scenPre = .ok (rate, daily) ∧
      ∀ t, 1 ≤ t → t < scenSwe.time.length →
        ∀ ip, ip < scenPre.time.length →
          scenPre.time.getD ip 0 = scenSwe.time.getD t 0 →
          ∀ i j, i < scenSwe.lat.length → j < scenSwe.lon.length →
            ∀ a b c : ℚ, cell scenSwe (t - 1) i j = some a →
              cell scenSwe t i j = some b → cell scenPre ip i j = some c →
              cell daily (t - 1) i j = some (max 0 (a - b + c)) ∧
              cell rate (t - 1) i j = some (max 0 (a - b + c) / 86400000)) ∧
    calculate_lwf scenSwe scenPre = .ok (scenRate, scenDaily) ∧
    calculate_lwf scenSwe2 scenPre =
      .ok (⟨[1], [0, 1], [0, 1], [uniformCells 0]⟩,
           ⟨[1], [0, 1], [0, 1], [uniformCells 0]⟩) :=
  ⟨claim_C1 scenSwe scenPre (by decide) (by decide) (by decide) (by decide) (by decide)
    (by decide) (by decide) (by decide), by decide, by decide⟩

/-- Witness for C4: the no-data propagation theorem applies to an input
with a missing cell, and that cell of the mm/day output is indeed
no-data (not zero). -/
theorem claim_C4_witness :
    (∃ rate daily, calculate_lwf mixSwe scenPre = .ok (rate, daily) ∧
      ∀ t, 1 ≤ t → t < mixSwe.time.length →
        ∀ ip, ip < scenPre.time.length →
          scenPre.time.getD ip 0 = mixSwe.time.getD t 0 →
          ∀ i j, i < mixSwe.lat.length → j < mixSwe.lon.length →
            (cell mixSwe (t - 1) i j = none ∨ cell mixSwe t i j = none ∨
              cell scenPre ip i j = none) →
            cell rate (t - 1) i j = none ∧ cell daily (t - 1) i j = none) ∧
    calculate_lwf mixSwe scenPre =
      .ok (⟨[1], [0, 1], [0, 1], [[[some (3 / 86400000), none],
             [some (3 / 86400000), some (3 / 86400000)]]]⟩,
           ⟨[1], [0, 1], [0, 1], [[[some 3, none], [some 3, some 3]]]⟩) :=
  ⟨claim_C4 mixSwe scenPre (by decide) (by decide) (by decide) (by decide) (by decide)
    (by decide) (by decide) (by decide), by decide⟩

/-- Witness for C5: `swe.time = [0, 1]`, `precip.time = [0]` only —
`calculate_lwf` signals the time-alignment error. -/
theorem claim_C5_witness :
    calculate_lwf w5Swe w5Pre = .error .timeAlignmentError :=
  claim_C5 w5Swe w5Pre (by decide) (by decide) (by decide) (by decide) (by decide)
    (by decide) ⟨1, by decide, by decide, by decide⟩

/-- Witness for C6 at the scenario inputs. -/
theorem claim_C6_witness :
    scenRate.time = scenSwe.time.drop 1 ∧ scenDaily.time = scenSwe.time.drop 1 :=
  claim_C6 scenSwe scenPre scenRate scenDaily (by decide)

/-- Witness for C7 at the scenario inputs. -/
theorem claim_C7_witness :
    (∀ t i j (q : ℚ), cell scenRate t i j = some q → 0 ≤ q) ∧
    (∀ t i j (q : ℚ), cell scenDaily t i j = some q → 0 ≤ q) :=
  claim_C7 scenSwe scenPre scenRate scenDaily (by decide)

/-- Witness for C8 at the scenario inputs: the stored rate 3/86400000
scales back to the daily value 3. -/
theorem claim_C8_witness :
    cell scenDaily 0 0 0 = some ((3 / 86400000 : ℚ) * 86400000) :=
  claim_C8 scenSwe scenPre scenRate scenDaily (by decide) 0 0 0 (3 / 86400000) (by decide)

/-- Witness for C10: a single-timestamp SWE input returns empty outputs
without raising. -/
theorem claim_C10_witness :
    calculate_lwf w10Swe w5Pre =
      .ok (⟨[], w10Swe.lat, w10Swe.lon, []⟩, ⟨[], w10Swe.lat, w10Swe.lon, []⟩) :=
  claim_C10 w10Swe w5Pre (by decide)

/-- Counterexample to C9 as stated: the spatial grids of `cexSwe9` and
`cexPre9` differ (latitude axes in opposite order), yet `calculate_lwf`
does not signal any error — xarray label alignment matches the cells by
coordinate and the computation returns ordinary outputs. -/
theorem claim_C9_counterexample :
    cexPre9.lat ≠ cexSwe9.lat ∧ cexPre9.lon = cexSwe9.lon ∧
    calculate_lwf cexSwe9 cexPre9 =
      .ok (⟨[1], [0, 1], [5], [[[some (3 / 86400000)], [some (6 / 86400000)]]]⟩,
           ⟨[1], [0, 1], [5], [[[some 3], [some 6]]]⟩) := by decide

/-- Witness for the amended C9: disjoint latitude label sets make the
computation fail with the shape error. -/
theorem claim_C9_witness :
    calculate_lwf w9Swe w9Pre = .error .shapeMismatch :=
  claim_C9_amended w9Swe w9Pre (by decide) (by decide) (by decide) (by decide)

/-- Counterexample to C2 as stated: the source latitude axis [2, 0] is
strictly descending (allowed by §3), its min/max box is [0, 2] and the
target latitude 1 lies inside it, yet the crop (which uses the first
and last elements, not min and max) drops every cell: the cropped
target has empty spatial axes. -/
theorem claim_C2_counterexample :
    ((0 : ℚ) ∈ cexSrc2.lat ∧ (2 : ℚ) ∈ cexSrc2.lat ∧
      ∀ x ∈ cexSrc2.lat, (0 : ℚ) ≤ x ∧ x ≤ 2) ∧
    ((1 : ℚ) ∈ cexTgt2.lat ∧ (0 : ℚ) ≤ (1 : ℚ) ∧ (1 : ℚ) ≤ 2) ∧
    resample_SNODAS_to_CaPA kNone cexSrc2 cexTgt2 =
      .ok (⟨[0], [], [], [[]]⟩, ⟨[0], [], [], [[]]⟩) := by decide

/-- Witness for the amended C2 on an ascending source grid: the crop
keeps exactly the target cells inside the first/last box and the full
time axis. -/
theorem claim_C2_witness :
    cW.time = tgtW.time ∧
    ∀ la lo : ℚ, (la ∈ cW.lat ∧ lo ∈ cW.lon) ↔
      (la ∈ tgtW.lat ∧ lo ∈ tgtW.lon ∧
        (0 : ℚ) ≤ la ∧ la ≤ 2 ∧ (0 : ℚ) ≤ lo ∧ lo ≤ 2) :=
  claim_C2_amended kNone srcW tgtW 0 2 0 2 (by decide) (by decide) (by decide) (by decide)
    rW cW (by decide)

/-- Counterexample to C3 as stated: a time step with only 2 valid
source points does not degrade to a no-data output row — the whole
resample run aborts with the triangulation error. -/
theorem claim_C3_counterexample :
    (stepPts cexSrc3 0).length = 2 ∧ 0 < cexSrc3.time.length ∧
    resample_SNODAS_to_CaPA kNone cexSrc3 cexTgt2 = .error .qhullError := by decide

/-- Witness for the amended C3: one valid point at step 0 aborts the run. -/
theorem claim_C3_witness :
    resample_SNODAS_to_CaPA kNone w3Src w3Tgt = .error .qhullError :=
  claim_C3_amended kNone w3Src w3Tgt (by decide) (by decide) ⟨0, by decide, by decide⟩

end Concrete

end LWF
